import Mathlib

/-!
Shallow embedding of `src/jijinalllist.py`, a script that fetches a fund
catalog (`get_fund_list`), enriches each of the first `TOP_N` rows with its
latest net-asset-value observation (`fetch_latest_nav`), and exports the
combined table (`main`).

A pandas `DataFrame` is modelled as a list of column names together with a
list of rows, each row a list of cells.  Library primitives the script uses
(`pd.to_datetime`/`pd.to_numeric` with `errors="coerce"`, `str.zfill`,
`rename`, column selection/assignment, `drop_duplicates`, `sort_values`,
`head`) are modelled as executable Lean functions.  Provider calls are
modelled as inputs: the catalog provider is a map from candidate function
names to an optional result, and the per-symbol NAV endpoint is a map from
symbol to a `FetchResult` which may signal an exception.
-/

/-- A cell of a dataframe: a string, a number (Python floats are modelled as
rationals), or a missing value (`NaN`/`NaT`/`None`). -/
inductive Cell where
  | str : String → Cell
  | num : Rat → Cell
  | null : Cell
deriving DecidableEq

/-- A calendar date, as produced by `pd.to_datetime` on a well-formed cell. -/
structure Date where
  y : Nat
  m : Nat
  d : Nat
deriving DecidableEq

/-- Numeric key giving the chronological order of dates (the parser bounds
months below 100 and days below 100, so this is the lexicographic order). -/
def Date.key (dt : Date) : Nat := dt.y * 10000 + dt.m * 100 + dt.d

/-- A dataframe: column names and rows of cells. -/
structure DataFrame where
  cols : List String
  rows : List (List Cell)
deriving DecidableEq

/-- Index of the first column with the given name, as used by pandas column
lookup on our model. -/
def idxOf? (n : String) : List String → Option Nat
  | [] => none
  | c :: t => if c = n then some 0 else (idxOf? n t).map (· + 1)

/-- The cell of row `r` in the column named `n` (missing data give `null`). -/
def DataFrame.colAt (df : DataFrame) (n : String) (r : List Cell) : Cell :=
  match idxOf? n df.cols with
  | some i => r.getD i Cell.null
  | none => Cell.null

/-- Column access `df[n]`: the column named `n` as a list of cells, one per row. -/
def DataFrame.getCol (df : DataFrame) (n : String) : List Cell :=
  df.rows.map (fun r => df.colAt n r)

/-- Column assignment `df[n] = vals`: overwrite the column named `n` in place if it exists,
otherwise append it on the right, as pandas column assignment does. -/
def DataFrame.setCol (df : DataFrame) (n : String) (vals : List Cell) : DataFrame :=
  match idxOf? n df.cols with
  | some i => ⟨df.cols, (df.rows.zip vals).map (fun p => p.1.set i p.2)⟩
  | none => ⟨df.cols ++ [n], (df.rows.zip vals).map (fun p => p.1 ++ [p.2])⟩

/-- Projection `df[names]`: keep the listed columns, in the listed order. -/
def DataFrame.select (df : DataFrame) (names : List String) : DataFrame :=
  ⟨names, df.rows.map (fun r => names.map (fun n => df.colAt n r))⟩

/-- Core of `drop_duplicates(keep="first")`: keep a row only when its key has
not been seen on an earlier row. -/
def dedupAux (key : List Cell → Cell) (seen : List Cell) : List (List Cell) → List (List Cell)
  | [] => []
  | r :: rs =>
    if key r ∈ seen then dedupAux key seen rs
    else r :: dedupAux key (key r :: seen) rs

/-- Model of `df.drop_duplicates(subset=[n])`: de-duplicate rows by the column `n`,
keeping the first occurrence. -/
def DataFrame.dropDupBy (df : DataFrame) (n : String) : DataFrame :=
  ⟨df.cols, dedupAux (fun r => df.colAt n r) [] df.rows⟩

/-- Whether the string `s` contains `sub` as a substring (Python `sub in s`),
on the underlying character lists. -/
def subAux (sub : List Char) : List Char → Bool
  | [] => sub.isEmpty
  | c :: t => sub.isPrefixOf (c :: t) || subAux sub t

/-- String containment test, Python `sub in s`. -/
def strHasSub (s sub : String) : Bool := subAux sub.data s.data

/-- Split a character list at every occurrence of `sep` (model of splitting a
string on a one-character separator). -/
def splitOnChar (sep : Char) : List Char → List (List Char)
  | [] => [[]]
  | c :: t =>
    match splitOnChar sep t with
    | [] => if c = sep then [[], []] else [[c]]
    | h :: t2 => if c = sep then [] :: h :: t2 else (c :: h) :: t2

/-- Whether a nonempty character list consists of decimal digits only. -/
def isDigits (l : List Char) : Bool := !l.isEmpty && l.all Char.isDigit

/-- Decimal value of a digit list. -/
def digitsToNat (l : List Char) : Nat := l.foldl (fun n c => n * 10 + (c.toNat - 48)) 0

/-- Model of `pd.to_datetime(·, errors="coerce")` on one cell: an
ISO-formatted `YYYY-MM-DD` string parses to a date, anything else coerces to
missing (`NaT`). -/
def parseDate : Cell → Option Date
  | Cell.str s =>
    match splitOnChar '-' s.data with
    | [ys, ms, ds] =>
      if isDigits ys = true ∧ isDigits ms = true ∧ isDigits ds = true
          ∧ ys.length = 4 ∧ ms.length ≤ 2 ∧ ds.length ≤ 2
          ∧ 1 ≤ digitsToNat ms ∧ digitsToNat ms ≤ 12
          ∧ 1 ≤ digitsToNat ds ∧ digitsToNat ds ≤ 31
      then some ⟨digitsToNat ys, digitsToNat ms, digitsToNat ds⟩
      else none
    | _ => none
  | _ => none

/-- Model of `pd.to_numeric(·, errors="coerce")` on one cell: numbers pass
through, decimal strings parse, anything else coerces to missing (`NaN`). -/
def parseNum : Cell → Option Rat
  | Cell.num q => some q
  | Cell.str s =>
    match splitOnChar '.' s.data with
    | [a] => if isDigits a = true then some ((digitsToNat a : Rat)) else none
    | [a, b] =>
      if isDigits a = true ∧ isDigits b = true
      then some ((digitsToNat a : Rat) + (digitsToNat b : Rat) / ((10 : Rat) ^ b.length))
      else none
    | _ => none
  | Cell.null => none

/-- Python `str.zfill` on a character list: left-pad with zeros up to the
width, keeping a leading sign in front of the padding. -/
def zfillL (w : Nat) (l : List Char) : List Char :=
  if w ≤ l.length then l
  else
    match l with
    | c :: t =>
      if c = '-' ∨ c = '+' then c :: (List.replicate (w - (t.length + 1)) '0' ++ t)
      else List.replicate (w - l.length) '0' ++ l
    | [] => List.replicate w '0'

/-- Python `str.zfill`. -/
def zfill (w : Nat) (s : String) : String := ⟨zfillL w s.data⟩

/-- Python `str(cell)` as pandas `astype(str)` renders it (`NaN` prints as
`"nan"`). -/
def cellToStr : Cell → String
  | Cell.str s => s
  | Cell.num q => toString q
  | Cell.null => "nan"

/-- Model of `strftime("%Y-%m-%d")`: zero-padded 4-2-2 rendering of a date. -/
def formatDate (dt : Date) : String :=
  zfill 4 (toString dt.y) ++ "-" ++ zfill 2 (toString dt.m) ++ "-" ++ zfill 2 (toString dt.d)

/-! ### `get_fund_list` -/

/-- The candidate akshare catalog functions probed in order (line 30). -/
def candidates : List String := ["fund_name_em", "fund_em_fund_name", "fund_open_fund_name_em"]

/-- Probe-then-call (lines 35-47): the result of the first candidate function
that exists, `none` when none of them does. -/
def firstAvailable (funcs : String → Option DataFrame) : Option DataFrame :=
  candidates.findSome? funcs

/-- The column renaming of lines 50-65: each known alternate spelling maps to
its canonical name, every other column name is unchanged. -/
def canonName (c : String) : String :=
  if c = "基金代码" ∨ c = "代码" then "基金代码"
  else if c = "基金简称" ∨ c = "简称" ∨ c = "基金名称" ∨ c = "名称" then "基金名称"
  else if c = "基金类型" ∨ c = "类型" then "基金类型"
  else if c = "基金全称" ∨ c = "全称" then "基金全称"
  else if c = "基金公司" ∨ c = "公司" then "基金公司"
  else if c = "成立日期" ∨ c = "成立日" then "成立日期"
  else c

/-- Model of `df.rename(columns=rename_map)` for the map built on lines 50-65. -/
def renameCanon (df : DataFrame) : DataFrame := ⟨df.cols.map canonName, df.rows⟩

/-- Lines 67-72: ensure a `基金代码` column exists, renaming the first column
containing `代码` to it; `none` models the `RuntimeError` when no such
column exists. -/
def ensureCode (df : DataFrame) : Option DataFrame :=
  if "基金代码" ∈ df.cols then some df
  else
    match df.cols.find? (fun c => strHasSub c ("代码")) with
    | some cc => some ⟨df.cols.map (fun c => if c = cc then "基金代码" else c), df.rows⟩
    | none => none

/-- Lines 74-76: ensure a `基金名称` column exists, copying the first column
containing `简称` or `名称`, or filling with the empty string when none
can be inferred. -/
def ensureName (df : DataFrame) : DataFrame :=
  if "基金名称" ∈ df.cols then df
  else
    match df.cols.find? (fun c => strHasSub c ("简称") || strHasSub c ("名称")) with
    | some nc => df.setCol ("基金名称") (df.getCol nc)
    | none => df.setCol ("基金名称") (df.rows.map (fun _ => Cell.str ""))

/-- The fixed keep-list of line 78. -/
def keepCols : List String := ["基金代码", "基金名称", "基金类型", "基金全称", "基金公司", "成立日期"]

/-- Lines 78-82: keep the known columns, zero-pad the identifiers to width 6,
and drop duplicate identifiers keeping the first occurrence. -/
def finalize (df : DataFrame) : DataFrame :=
  let keep := keepCols.filter (fun c => decide (c ∈ df.cols))
  let df4 := df.select keep
  let df5 := df4.setCol ("基金代码")
    ((df4.getCol ("基金代码")).map (fun c => Cell.str (zfill 6 (cellToStr c))))
  df5.dropDupBy ("基金代码")

/-- Model of `get_fund_list` (lines 26-83).  `funcs` maps each akshare function name to
`none` when the installed version lacks it and to its returned dataframe
otherwise; `Except.error` models the two `RuntimeError` raises. -/
def get_fund_list (funcs : String → Option DataFrame) : Except String DataFrame :=
  match firstAvailable funcs with
  | none => Except.error ("no fund list function in this akshare version")
  | some df0 =>
    match ensureCode (renameCanon df0) with
    | none => Except.error ("fund list lacks a code column")
    | some df2 => Except.ok (finalize (ensureName df2))

/-! ### `fetch_latest_nav` -/

/-- The outcome of the per-symbol call
`ak.fund_open_fund_info_em(symbol=..., indicator="单位净值走势")`: an
exception during the request, or a response that may be `None`. -/
inductive FetchResult where
  | exc : FetchResult
  | ok : Option DataFrame → FetchResult

/-- The rows of the series that survive coercion and
`dropna(subset=[date_col, nav_col])`, as (date, value) pairs, given the
positions `di` and `ni` of the date and NAV columns. -/
def navPairs (dfn : DataFrame) (di ni : Nat) : List (Date × Rat) :=
  dfn.rows.filterMap (fun r =>
    match parseDate (r.getD di Cell.null), parseNum (r.getD ni Cell.null) with
    | some dt, some v => some (dt, v)
    | _, _ => none)

/-- Chronological order on the surviving rows, used by
`sort_values(date_col)`. -/
def navLe (a b : Date × Rat) : Prop := a.1.key ≤ b.1.key

instance : DecidableRel navLe := fun a b => inferInstanceAs (Decidable (a.1.key ≤ b.1.key))

instance : IsTotal (Date × Rat) navLe := ⟨fun a b => Nat.le_total a.1.key b.1.key⟩

instance : IsTrans (Date × Rat) navLe := ⟨fun _ _ _ => Nat.le_trans⟩

/-- Model of `fetch_latest_nav` (lines 86-110): latest unit NAV and its date from the
per-symbol series, `(none, none)` on a `None`/empty response, on fully
unparseable data, or on any exception (including the `IndexError` from
`dfn.columns[0]`/`dfn.columns[1]` when the response is too narrow). -/
def fetch_latest_nav (r : FetchResult) : Option String × Option Rat :=
  match r with
  | FetchResult.exc => (none, none)
  | FetchResult.ok none => (none, none)
  | FetchResult.ok (some dfn) =>
    if dfn.rows.length = 0 then (none, none)
    else
      let diOpt : Option Nat :=
        if "净值日期" ∈ dfn.cols then idxOf? ("净值日期") dfn.cols
        else if 0 < dfn.cols.length then some 0 else none
      let niOpt : Option Nat :=
        if "单位净值" ∈ dfn.cols then idxOf? ("单位净值") dfn.cols
        else if 1 < dfn.cols.length then some 1 else none
      match diOpt, niOpt with
      | some di, some ni =>
        match (List.insertionSort navLe (navPairs dfn di ni)).getLast? with
        | none => (none, none)
        | some (dt, v) => (some (formatDate dt), some v)
      | _, _ => (none, none)

/-! ### `main` -/

/-- Line 15. -/
def TOP_N : Nat := 1000

/-- The table built by `main` (lines 113-139) before it is written to Excel:
take the first `TOP_N` catalog rows, fetch the latest NAV for each identifier
in order, and append the three result columns.  `fetch` maps each symbol to
the outcome of its NAV request and `now` is the export timestamp string;
printing, sleeping and the Excel write are outside the model. -/
def mainTable (funcs : String → Option DataFrame) (fetch : String → FetchResult)
    (now : String) : Except String DataFrame :=
  match get_fund_list funcs with
  | Except.error e => Except.error e
  | Except.ok dfAll =>
    let df : DataFrame := ⟨dfAll.cols, dfAll.rows.take TOP_N⟩
    let codes := (df.getCol ("基金代码")).map cellToStr
    let navs := codes.map (fun c => fetch_latest_nav (fetch c))
    let df1 := df.setCol ("最新净值日期") (navs.map (fun p => p.1.elim Cell.null Cell.str))
    let df2 := df1.setCol ("最新单位净值") (navs.map (fun p => p.2.elim Cell.null Cell.num))
    let df3 := df2.setCol ("导出时间") (df2.rows.map (fun _ => Cell.str now))
    Except.ok df3

/-! ### Concrete instances used in witnesses and counterexamples -/

/-- A concrete series with three valid rows in non-chronological order. -/
def c1dfn : DataFrame :=
  ⟨["净值日期", "单位净值"],
   [[Cell.str "2024-01-02", Cell.num 1], [Cell.str "2024-01-05", Cell.num 2],
    [Cell.str "2024-01-03", Cell.num 3]]⟩

/-- A provider response with a code column but no name-like column. -/
def c4df : DataFrame := ⟨["代码"], [[Cell.str "7"]]⟩

/-- A provider environment returning `c4df` from the first candidate. -/
def c4funcs : String → Option DataFrame :=
  fun n => if n = "fund_name_em" then some c4df else none

/-- A provider response with alternate column spellings and a duplicate
identifier. -/
def c5df : DataFrame :=
  ⟨["代码", "名称"],
   [[Cell.str "1", Cell.str "A"], [Cell.str "2", Cell.str "B"], [Cell.str "1", Cell.str "C"]]⟩

/-- A provider environment returning `c5df` from the first candidate. -/
def c5funcs : String → Option DataFrame :=
  fun n => if n = "fund_name_em" then some c5df else none

/-- The catalog `get_fund_list` produces from `c5funcs`. -/
def c5out : DataFrame :=
  ⟨["基金代码", "基金名称"],
   [[Cell.str "000001", Cell.str "A"], [Cell.str "000002", Cell.str "B"]]⟩

/-- A provider response using every alternate column spelling. -/
def c6df : DataFrame :=
  ⟨["代码", "简称", "类型", "全称", "公司", "成立日"],
   [[Cell.str "1", Cell.str "A", Cell.str "T", Cell.str "F", Cell.str "G", Cell.str "2000-01-01"]]⟩

/-- A provider environment returning `c6df` from the first candidate. -/
def c6funcs : String → Option DataFrame :=
  fun n => if n = "fund_name_em" then some c6df else none

/-- The catalog `get_fund_list` produces from `c6funcs`. -/
def c6out : DataFrame :=
  ⟨["基金代码", "基金名称", "基金类型", "基金全称", "基金公司", "成立日期"],
   [[Cell.str "000001", Cell.str "A", Cell.str "T", Cell.str "F", Cell.str "G",
     Cell.str "2000-01-01"]]⟩

/-- A three-row catalog provider for the end-to-end scenario. -/
def c8df : DataFrame :=
  ⟨["基金代码", "基金名称"],
   [[Cell.str "1", Cell.str "A"], [Cell.str "2", Cell.str "B"], [Cell.str "3", Cell.str "C"]]⟩

/-- A provider environment returning `c8df` from the first candidate. -/
def c8funcs : String → Option DataFrame :=
  fun n => if n = "fund_name_em" then some c8df else none

/-- Canned NAV responses: a valid series for `000001` and `000003`, an empty
response for `000002`, and an exception for anything else. -/
def c8fetch : String → FetchResult :=
  fun s =>
    if s = "000001" then
      FetchResult.ok (some ⟨["净值日期", "单位净值"], [[Cell.str "2024-01-02", Cell.num 1]]⟩)
    else if s = "000002" then
      FetchResult.ok (some ⟨["净值日期", "单位净值"], []⟩)
    else if s = "000003" then
      FetchResult.ok (some ⟨["净值日期", "单位净值"],
        [[Cell.str "2024-02-03", Cell.num 2], [Cell.str "2024-01-03", Cell.num 3]]⟩)
    else FetchResult.exc

/-- The catalog `get_fund_list` produces from `c8funcs`. -/
def c8cat : DataFrame :=
  ⟨["基金代码", "基金名称"],
   [[Cell.str "000001", Cell.str "A"], [Cell.str "000002", Cell.str "B"],
    [Cell.str "000003", Cell.str "C"]]⟩

/-- The table `main` exports in the end-to-end scenario. -/
def c8out : DataFrame :=
  ⟨["基金代码", "基金名称", "最新净值日期", "最新单位净值", "导出时间"],
   [[Cell.str "000001", Cell.str "A", Cell.str "2024-01-02", Cell.num 1, Cell.str "2025-01-01 00:00:00"],
    [Cell.str "000002", Cell.str "B", Cell.null, Cell.null, Cell.str "2025-01-01 00:00:00"],
    [Cell.str "000003", Cell.str "C", Cell.str "2024-02-03", Cell.num 2, Cell.str "2025-01-01 00:00:00"]]⟩

/-! ### Helper lemmas -/

theorem mem_of_idxOf? {n : String} : ∀ {l : List String} {i : Nat}, idxOf? n l = some i → n ∈ l
  | [], _, h => by simp [idxOf?] at h
  | c :: t, i, h => by
    by_cases hc : c = n
    · exact hc ▸ List.mem_cons_self c t
    · simp only [idxOf?, if_neg hc, Option.map_eq_some'] at h
      obtain ⟨j, hj, _⟩ := h
      exact List.mem_cons_of_mem c (mem_of_idxOf? hj)

theorem idxOf?_eq_none {n : String} : ∀ {l : List String}, n ∉ l → idxOf? n l = none
  | [], _ => rfl
  | c :: t, h => by
    have hc : ¬ c = n := fun hcn => h (hcn ▸ List.mem_cons_self c t)
    simp only [idxOf?, if_neg hc, Option.map_eq_none']
    exact idxOf?_eq_none (fun hm => h (List.mem_cons_of_mem c hm))

theorem exists_getLast?_of_ne_nil {α : Type _} {l : List α} (h : l ≠ []) :
    ∃ x, l.getLast? = some x := by
  cases hx : l.getLast? with
  | none => exact absurd (List.getLast?_eq_none_iff.mp hx) h
  | some x => exact ⟨x, rfl⟩

theorem pairwise_getLast_le {α : Type _} {r : α → α → Prop} (hrefl : ∀ a, r a a) :
    (l : List α) → (x : α) → l.Pairwise r → l.getLast? = some x → ∀ a ∈ l, r a x
  | [], _, _, hx => by simp at hx
  | [a], x, _, hx => by
    simp only [List.getLast?_singleton, Option.some.injEq] at hx
    intro b hb
    simp only [List.mem_singleton] at hb
    subst hx
    subst hb
    exact hrefl b
  | a :: b :: t, x, hp, hx => by
    rw [List.getLast?_cons_cons] at hx
    rcases List.pairwise_cons.mp hp with ⟨h1, h2⟩
    intro c hc
    rcases List.mem_cons.mp hc with rfl | hc2
    · exact h1 x (List.mem_of_mem_getLast? (Option.mem_def.mpr hx))
    · exact pairwise_getLast_le hrefl (b :: t) x h2 hx c hc2

/-! ### Claims about `fetch_latest_nav` -/

theorem fetch_latest_nav_eval (dfn : DataFrame) (di ni : Nat)
    (hrows : ¬ dfn.rows.length = 0)
    (hd : idxOf? ("净值日期") dfn.cols = some di)
    (hn : idxOf? ("单位净值") dfn.cols = some ni) :
    fetch_latest_nav (FetchResult.ok (some dfn)) =
      match (List.insertionSort navLe (navPairs dfn di ni)).getLast? with
      | none => (none, none)
      | some (dt, v) => (some (formatDate dt), some v) := by
  have hdm := mem_of_idxOf? hd
  have hnm := mem_of_idxOf? hn
  simp only [fetch_latest_nav]
  rw [if_neg hrows, if_pos hdm, hd, if_pos hnm, hn]

/-- C1: when the per-identifier series has at least two rows that survive
date and value coercion, `fetch_latest_nav` returns the pair whose date is
maximal over all surviving rows, formatted `YYYY-MM-DD`, and that pair is one
of the surviving rows. -/
theorem fetch_latest_nav_returns_max_date (dfn : DataFrame) (di ni : Nat)
    (hd : idxOf? ("净值日期") dfn.cols = some di)
    (hn : idxOf? ("单位净值") dfn.cols = some ni)
    (hmulti : 2 ≤ (navPairs dfn di ni).length) :
    ∃ dt v, fetch_latest_nav (FetchResult.ok (some dfn)) = (some (formatDate dt), some v)
      ∧ (dt, v) ∈ navPairs dfn di ni
      ∧ ∀ p ∈ navPairs dfn di ni, p.1.key ≤ dt.key := by
  have hle : (navPairs dfn di ni).length ≤ dfn.rows.length := List.length_filterMap_le _ _
  have hrows : ¬ dfn.rows.length = 0 := by omega
  have hdm : "净值日期" ∈ dfn.cols := mem_of_idxOf? hd
  have hnm : "单位净值" ∈ dfn.cols := mem_of_idxOf? hn
  have hperm := List.perm_insertionSort navLe (navPairs dfn di ni)
  have hsorted := List.sorted_insertionSort navLe (navPairs dfn di ni)
  have hne : List.insertionSort navLe (navPairs dfn di ni) ≠ [] := by
    intro h0
    have hlen := hperm.length_eq
    rw [h0] at hlen
    simp only [List.length_nil] at hlen
    omega
  obtain ⟨p, hp⟩ := exists_getLast?_of_ne_nil hne
  obtain ⟨dt, v⟩ := p
  refine ⟨dt, v, ?_, ?_, ?_⟩
  · rw [fetch_latest_nav_eval dfn di ni hrows hd hn, hp]
  · exact hperm.mem_iff.mp (List.mem_of_mem_getLast? (Option.mem_def.mpr hp))
  · intro q hq
    exact @pairwise_getLast_le _ navLe (fun a => Nat.le_refl a.1.key)
      (List.insertionSort navLe (navPairs dfn di ni)) (dt, v) hsorted hp q
      (hperm.mem_iff.mpr hq)

/-- Witness instantiating `fetch_latest_nav_returns_max_date`. -/
theorem fetch_latest_nav_returns_max_date_witness :
    ∃ dt v, fetch_latest_nav (FetchResult.ok (some c1dfn)) = (some (formatDate dt), some v)
      ∧ (dt, v) ∈ navPairs c1dfn 0 1
      ∧ ∀ p ∈ navPairs c1dfn 0 1, p.1.key ≤ dt.key :=
  fetch_latest_nav_returns_max_date c1dfn 0 1 (by decide) (by decide) (by decide)

/-- C2: `fetch_latest_nav` is total and collapses every failure mode to
`(none, none)`: an exception, a `None` response, an empty series, and a
series on which every row is dropped by coercion. -/
theorem fetch_latest_nav_never_raises :
    fetch_latest_nav FetchResult.exc = (none, none)
    ∧ fetch_latest_nav (FetchResult.ok none) = (none, none)
    ∧ (∀ dfn : DataFrame, dfn.rows = [] →
        fetch_latest_nav (FetchResult.ok (some dfn)) = (none, none))
    ∧ (∀ dfn : DataFrame, (∀ di ni, navPairs dfn di ni = []) →
        fetch_latest_nav (FetchResult.ok (some dfn)) = (none, none)) := by
  refine ⟨rfl, rfl, ?_, ?_⟩
  · intro dfn h
    simp only [fetch_latest_nav]
    rw [if_pos (by rw [h]; rfl)]
  · intro dfn h
    simp only [fetch_latest_nav]
    split
    · rfl
    · split
      · rw [h]
        rfl
      · rfl

/-- Witness instantiating `fetch_latest_nav_never_raises` on an empty series
and on a series whose single row coerces to missing on both columns. -/
theorem fetch_latest_nav_never_raises_witness :
    fetch_latest_nav (FetchResult.ok (some ⟨["净值日期", "单位净值"], []⟩)) = (none, none)
    ∧ fetch_latest_nav (FetchResult.ok (some ⟨["净值日期", "单位净值"], [[]]⟩)) = (none, none) :=
  ⟨fetch_latest_nav_never_raises.2.2.1 _ rfl,
   fetch_latest_nav_never_raises.2.2.2 _
     (fun di ni => by simp [navPairs, List.getD, parseDate, parseNum])⟩

/-- C9: the result of `fetch_latest_nav` is all-or-nothing: either both
components are `none` or both are present. -/
theorem fetch_latest_nav_none_or_both (r : FetchResult) :
    fetch_latest_nav r = (none, none)
    ∨ ∃ s v, fetch_latest_nav r = (some s, some v) := by
  match r with
  | FetchResult.exc => exact Or.inl rfl
  | FetchResult.ok none => exact Or.inl rfl
  | FetchResult.ok (some dfn) =>
    simp only [fetch_latest_nav]
    split
    · exact Or.inl rfl
    · split
      · split
        · exact Or.inl rfl
        · exact Or.inr ⟨_, _, rfl⟩
      · exact Or.inl rfl

/-! ### Structural lemmas about the catalog pipeline -/

theorem zip_self_map {α β γ : Type _} (l : List α) (g : α → β) (h : α → β → γ) :
    ((l.zip (l.map g)).map (fun p => h p.1 p.2)) = l.map (fun a => h a (g a)) := by
  induction l with
  | nil => rfl
  | cons a t ih => simp only [List.map_cons, List.zip_cons_cons, ih]

theorem mem_of_mem_dedupAux {key : List Cell → Cell} :
    ∀ {seen : List Cell} {rs : List (List Cell)} {r : List Cell},
      r ∈ dedupAux key seen rs → r ∈ rs := by
  intro seen rs
  induction rs generalizing seen with
  | nil => intro r h; simp [dedupAux] at h
  | cons a t ih =>
    intro r h
    simp only [dedupAux] at h
    split at h
    · exact List.mem_cons_of_mem a (ih h)
    · rcases List.mem_cons.mp h with rfl | h2
      · exact List.mem_cons_self _ _
      · exact List.mem_cons_of_mem _ (ih h2)

theorem dedupAux_key_nodup (key : List Cell → Cell) :
    ∀ (rs : List (List Cell)) (seen : List Cell),
      ((dedupAux key seen rs).map key).Nodup
      ∧ ∀ k ∈ (dedupAux key seen rs).map key, k ∉ seen := by
  intro rs
  induction rs with
  | nil => intro seen; simp [dedupAux]
  | cons a t ih =>
    intro seen
    simp only [dedupAux]
    split
    · exact ih seen
    · obtain ⟨ih1, ih2⟩ := ih (key a :: seen)
      refine ⟨List.nodup_cons.mpr ⟨?_, ih1⟩, ?_⟩
      · intro hmem
        exact (ih2 (key a) hmem) (List.mem_cons_self _ _)
      · intro k hk
        rcases List.mem_cons.mp hk with rfl | hk2
        · assumption
        · exact fun hs => (ih2 k hk2) (List.mem_cons_of_mem _ hs)

theorem idxOf?_getElem? {n : String} :
    ∀ {l : List String} {i : Nat}, idxOf? n l = some i → l[i]? = some n
  | [], _, h => by simp [idxOf?] at h
  | c :: t, i, h => by
    by_cases hc : c = n
    · simp only [idxOf?, if_pos hc] at h
      cases h
      simp [hc]
    · simp only [idxOf?, if_neg hc, Option.map_eq_some'] at h
      obtain ⟨j, hj, hi⟩ := h
      subst hi
      simpa using idxOf?_getElem? hj

theorem idxOf?_append_of_not_mem {n : String} :
    ∀ {l1 : List String} (l2 : List String), n ∉ l1 →
      idxOf? n (l1 ++ l2) = (idxOf? n l2).map (· + l1.length)
  | [], l2, _ => by simp
  | c :: t, l2, h => by
    have hc : ¬ c = n := fun hcn => h (hcn ▸ List.mem_cons_self c t)
    have ht : n ∉ t := fun hm => h (List.mem_cons_of_mem c hm)
    have ih := @idxOf?_append_of_not_mem n t l2 ht
    show (if c = n then some 0 else (idxOf? n (t ++ l2)).map (· + 1)) =
      (idxOf? n l2).map (· + (c :: t).length)
    rw [if_neg hc, ih]
    cases idxOf? n l2 with
    | none => rfl
    | some x =>
      simp only [Option.map_some', Option.some.injEq, List.length_cons]
      omega

theorem select_entry {df : DataFrame} {names : List String} {m : String} {i : Nat}
    (h : idxOf? m names = some i) (r : List Cell) :
    (names.map (fun n => df.colAt n r)).getD i Cell.null = df.colAt m r := by
  have hg := idxOf?_getElem? h
  simp [List.getD, hg]

theorem setCol_cols_of_idx {df : DataFrame} {n : String} {i : Nat}
    (h : idxOf? n df.cols = some i) (vals : List Cell) :
    (df.setCol n vals).cols = df.cols := by
  simp [DataFrame.setCol, h]

theorem setCol_of_not_mem {df : DataFrame} {n : String} (h : n ∉ df.cols) (vals : List Cell) :
    df.setCol n vals = ⟨df.cols ++ [n], (df.rows.zip vals).map (fun p => p.1 ++ [p.2])⟩ := by
  simp [DataFrame.setCol, idxOf?_eq_none h]

theorem ensureCode_code_mem {df df2 : DataFrame} (h : ensureCode df = some df2) :
    "基金代码" ∈ df2.cols := by
  unfold ensureCode at h
  split at h
  · cases h
    assumption
  · split at h
    · cases h
      rename_i hf
      exact List.mem_map.mpr ⟨_, List.mem_of_find?_eq_some hf, by simp⟩
    · cases h

theorem ensureCode_mem_preserved {df df2 : DataFrame} {n : String}
    (h : ensureCode df = some df2) (hm : n ∈ df.cols)
    (hn : strHasSub n ("代码") = false) : n ∈ df2.cols := by
  unfold ensureCode at h
  split at h
  · cases h
    exact hm
  · split at h
    · cases h
      rename_i hf
      have hcc := List.find?_some hf
      refine List.mem_map.mpr ⟨n, hm, ?_⟩
      rw [if_neg]
      intro hrf
      rw [hrf, hcc] at hn
      cases hn
    · cases h

theorem ensureName_cols (df : DataFrame) :
    (ensureName df).cols = df.cols ∨ (ensureName df).cols = df.cols ++ ["基金名称"] := by
  unfold ensureName
  split
  · exact Or.inl rfl
  · rename_i hnm
    split
    · rw [setCol_of_not_mem hnm]
      exact Or.inr rfl
    · rw [setCol_of_not_mem hnm]
      exact Or.inr rfl

theorem ensureName_mem {df : DataFrame} {n : String} (h : n ∈ df.cols) :
    n ∈ (ensureName df).cols := by
  rcases ensureName_cols df with hc | hc <;> rw [hc]
  · exact h
  · exact List.mem_append_left _ h

theorem ensureName_name_mem (df : DataFrame) : "基金名称" ∈ (ensureName df).cols := by
  unfold ensureName
  split
  · assumption
  · rename_i hnm
    split <;> rw [setCol_of_not_mem hnm] <;> exact List.mem_append_right _ (List.mem_singleton.mpr rfl)

theorem keep_eq_cons {df : DataFrame} (h : "基金代码" ∈ df.cols) :
    keepCols.filter (fun c => decide (c ∈ df.cols)) =
      "基金代码" :: (keepCols.tail).filter (fun c => decide (c ∈ df.cols)) := by
  show List.filter (fun c => decide (c ∈ df.cols)) ("基金代码" :: keepCols.tail) = _
  rw [List.filter_cons, if_pos (decide_eq_true h)]

theorem setCol_eq_of_idx {df : DataFrame} {n : String} {i : Nat}
    (h : idxOf? n df.cols = some i) (vals : List Cell) :
    df.setCol n vals = ⟨df.cols, (df.rows.zip vals).map (fun p => p.1.set i p.2)⟩ := by
  simp [DataFrame.setCol, h]

theorem finalize_cols {df : DataFrame} (h : "基金代码" ∈ df.cols) :
    (finalize df).cols = keepCols.filter (fun c => decide (c ∈ df.cols)) := by
  have hki : idxOf? ("基金代码")
      (DataFrame.select df (keepCols.filter (fun c => decide (c ∈ df.cols)))).cols = some 0 := by
    show idxOf? ("基金代码") (keepCols.filter (fun c => decide (c ∈ df.cols))) = some 0
    rw [keep_eq_cons h]
    simp [idxOf?]
  simp only [finalize, DataFrame.dropDupBy, setCol_eq_of_idx hki]
  rfl

theorem get_fund_list_ok_elim {funcs : String → Option DataFrame} {out : DataFrame}
    (h : get_fund_list funcs = Except.ok out) :
    ∃ df0 df2, firstAvailable funcs = some df0
      ∧ ensureCode (renameCanon df0) = some df2
      ∧ out = finalize (ensureName df2) := by
  unfold get_fund_list at h
  split at h
  · cases h
  · rename_i df0 hfa
    split at h
    · cases h
    · rename_i df2 hec
      cases h
      exact ⟨df0, df2, hfa, hec, rfl⟩

theorem ensureCode_eq_none_iff {df : DataFrame} :
    ensureCode df = none ↔
      ("基金代码" ∉ df.cols ∧ ∀ c ∈ df.cols, strHasSub c ("代码") = false) := by
  unfold ensureCode
  split
  · rename_i hm
    simp [hm]
  · rename_i hnm
    split
    · rename_i cc hf
      simp only [reduceCtorEq, false_iff, not_and]
      intro _ hall
      have h1 := List.find?_some hf
      have h2 := hall cc (List.mem_of_find?_eq_some hf)
      rw [h2] at h1
      cases h1
    · rename_i hf
      simp only [true_iff]
      refine ⟨hnm, fun c hc => ?_⟩
      have := List.find?_eq_none.mp hf c hc
      simpa using this

theorem colAt_of_idx {df : DataFrame} {n : String} {i : Nat}
    (h : idxOf? n df.cols = some i) :
    df.colAt n = fun r => r.getD i Cell.null := by
  funext r
  simp [DataFrame.colAt, h]

theorem finalize_rows {df : DataFrame} (h : "基金代码" ∈ df.cols) :
    (finalize df).rows = dedupAux (fun r => r.getD 0 Cell.null) []
      (df.rows.map (fun r =>
        Cell.str (zfill 6 (cellToStr (df.colAt ("基金代码") r)))
          :: ((keepCols.tail).filter (fun c => decide (c ∈ df.cols))).map
              (fun n => df.colAt n r))) := by
  have hkeep := keep_eq_cons h
  have hki : idxOf? ("基金代码") (keepCols.filter (fun c => decide (c ∈ df.cols))) = some 0 := by
    rw [hkeep]
    simp [idxOf?]
  have hsel : DataFrame.select df (keepCols.filter (fun c => decide (c ∈ df.cols)))
      = ⟨keepCols.filter (fun c => decide (c ∈ df.cols)),
         df.rows.map (fun r => (keepCols.filter (fun c => decide (c ∈ df.cols))).map
           (fun n => df.colAt n r))⟩ := rfl
  have hstep : finalize df = DataFrame.dropDupBy
      ⟨keepCols.filter (fun c => decide (c ∈ df.cols)),
       df.rows.map (fun r =>
         Cell.str (zfill 6 (cellToStr (df.colAt ("基金代码") r)))
           :: ((keepCols.tail).filter (fun c => decide (c ∈ df.cols))).map
               (fun n => df.colAt n r))⟩ ("基金代码") := by
    simp only [finalize]
    congr 1
    rw [setCol_eq_of_idx (by exact hki)]
    congr 1
    rw [show (DataFrame.select df (keepCols.filter (fun c => decide (c ∈ df.cols)))).getCol
        ("基金代码") = df.rows.map (fun r => df.colAt ("基金代码") r) from ?vals]
    case vals =>
      show (df.rows.map (fun r => (keepCols.filter (fun c => decide (c ∈ df.cols))).map
          (fun n => df.colAt n r))).map
          ((DataFrame.select df (keepCols.filter (fun c => decide (c ∈ df.cols)))).colAt
            ("基金代码")) = _
      rw [colAt_of_idx (by exact hki), List.map_map]
      apply List.map_congr_left
      intro r _
      simp only [Function.comp_apply]
      rw [hkeep, List.map_cons]
      rfl
    rw [List.map_map]
    show ((df.rows.map fun r => (keepCols.filter (fun c => decide (c ∈ df.cols))).map
        (fun n => df.colAt n r)).zip
        (df.rows.map fun r => Cell.str (zfill 6 (cellToStr (df.colAt ("基金代码") r))))).map
        (fun p => p.1.set 0 p.2) = _
    rw [List.zip_map']
    rw [List.map_map]
    apply List.map_congr_left
    intro r _
    simp only [Function.comp_apply]
    rw [hkeep, List.map_cons]
    rfl
  rw [hstep]
  simp only [DataFrame.dropDupBy]
  rw [colAt_of_idx (by exact hki)]

theorem get_fund_list_cols_spec {funcs : String → Option DataFrame} {out : DataFrame}
    (h : get_fund_list funcs = Except.ok out) :
    ∃ df3 : DataFrame, "基金代码" ∈ df3.cols
      ∧ out.cols = keepCols.filter (fun c => decide (c ∈ df3.cols)) := by
  obtain ⟨df0, df2, _, h2, hout⟩ := get_fund_list_ok_elim h
  refine ⟨ensureName df2, ensureName_mem (ensureCode_code_mem h2), ?_⟩
  rw [hout, finalize_cols (ensureName_mem (ensureCode_code_mem h2))]

theorem get_fund_list_cols_sub {funcs : String → Option DataFrame} {out : DataFrame}
    (h : get_fund_list funcs = Except.ok out) : ∀ n ∈ out.cols, n ∈ keepCols := by
  obtain ⟨df3, _, hcols⟩ := get_fund_list_cols_spec h
  intro n hn
  rw [hcols] at hn
  exact (List.mem_filter.mp hn).1

theorem get_fund_list_rows_len {funcs : String → Option DataFrame} {out : DataFrame}
    (h : get_fund_list funcs = Except.ok out) :
    ∀ r ∈ out.rows, r.length = out.cols.length := by
  obtain ⟨df0, df2, _, h2, hout⟩ := get_fund_list_ok_elim h
  have hc3 : "基金代码" ∈ (ensureName df2).cols := ensureName_mem (ensureCode_code_mem h2)
  intro r hr
  rw [hout, finalize_rows hc3] at hr
  have hr2 := mem_of_mem_dedupAux hr
  rw [hout, finalize_cols hc3, keep_eq_cons hc3]
  obtain ⟨r0, _, hshape⟩ := List.mem_map.mp hr2
  rw [← hshape]
  simp

theorem mainTable_spec (funcs : String → Option DataFrame) (fetch : String → FetchResult)
    (now : String) (dfAll : DataFrame) (hget : get_fund_list funcs = Except.ok dfAll) :
    mainTable funcs fetch now = Except.ok
      ⟨dfAll.cols ++ ["最新净值日期", "最新单位净值", "导出时间"],
       (dfAll.rows.take TOP_N).map (fun r =>
         r ++ [((fetch_latest_nav (fetch (cellToStr (dfAll.colAt ("基金代码") r)))).1).elim
                 Cell.null Cell.str,
               ((fetch_latest_nav (fetch (cellToStr (dfAll.colAt ("基金代码") r)))).2).elim
                 Cell.null Cell.num,
               Cell.str now])⟩ := by
  have hsub := get_fund_list_cols_sub hget
  have hn1 : "最新净值日期" ∉ dfAll.cols := fun hm => by
    have := hsub _ hm
    revert this
    decide
  have hn2 : "最新单位净值" ∉ dfAll.cols := fun hm => by
    have := hsub _ hm
    revert this
    decide
  have hn3 : "导出时间" ∉ dfAll.cols := fun hm => by
    have := hsub _ hm
    revert this
    decide
  have hn2c : "最新单位净值" ∉ dfAll.cols ++ ["最新净值日期"] := by
    intro hm
    rcases List.mem_append.mp hm with hx | hx
    · exact hn2 hx
    · revert hx
      decide
  have hn3c : "导出时间" ∉ (dfAll.cols ++ ["最新净值日期"]) ++ ["最新单位净值"] := by
    intro hm
    rcases List.mem_append.mp hm with hx | hx
    · rcases List.mem_append.mp hx with hy | hy
      · exact hn3 hy
      · revert hy
        decide
    · revert hx
      decide
  unfold mainTable
  rw [hget]
  show Except.ok _ = _
  congr 1
  simp only [DataFrame.getCol, List.map_map]
  rw [@setCol_of_not_mem ⟨dfAll.cols, List.take TOP_N dfAll.rows⟩ _ hn1 _]
  dsimp only
  rw [zip_self_map _ _ (fun a b => a ++ [b])]
  rw [@setCol_of_not_mem _ ("最新单位净值") hn2c _]
  dsimp only
  rw [List.zip_map']
  simp only [List.map_map]
  rw [@setCol_of_not_mem _ ("导出时间") hn3c _]
  dsimp only
  rw [List.zip_map']
  simp only [List.map_map]
  have hca : DataFrame.colAt ⟨dfAll.cols, List.take TOP_N dfAll.rows⟩ = dfAll.colAt := rfl
  rw [hca]
  congr 1
  · simp [List.append_assoc]
  · apply List.map_congr_left
    intro r _
    simp only [Function.comp_apply]
    simp [List.append_assoc]

/-- C3: `get_fund_list` fails (raises) in exactly two situations: no candidate
provider function exists, or after renaming no `基金代码` column exists and no
column containing `代码` can be inferred; the error is returned to the
caller, not swallowed. -/
theorem get_fund_list_error_iff (funcs : String → Option DataFrame) :
    (∃ e, get_fund_list funcs = Except.error e) ↔
      firstAvailable funcs = none
      ∨ ∃ df0, firstAvailable funcs = some df0
          ∧ "基金代码" ∉ (renameCanon df0).cols
          ∧ ∀ c ∈ (renameCanon df0).cols, strHasSub c ("代码") = false := by
  constructor
  · rintro ⟨e, he⟩
    unfold get_fund_list at he
    split at he
    · rename_i hfa
      exact Or.inl hfa
    · rename_i df0 hfa
      split at he
      · rename_i hec
        obtain ⟨h1, h2⟩ := ensureCode_eq_none_iff.mp hec
        exact Or.inr ⟨df0, hfa, h1, h2⟩
      · cases he
  · rintro (hfa | ⟨df0, hfa, h1, h2⟩)
    · refine ⟨"no fund list function in this akshare version", ?_⟩
      unfold get_fund_list
      rw [hfa]
    · refine ⟨"fund list lacks a code column", ?_⟩
      unfold get_fund_list
      rw [hfa]
      show (match ensureCode (renameCanon df0) with
        | none => Except.error ("fund list lacks a code column")
        | some df2 => Except.ok (finalize (ensureName df2))) = _
      rw [ensureCode_eq_none_iff.mpr ⟨h1, h2⟩]

/-- C5: every entry of the identifier column `get_fund_list` returns is a
string of the form `zfill 6 s`, and the identifiers are pairwise distinct. -/
theorem get_fund_list_ids_padded_distinct (funcs : String → Option DataFrame)
    (out : DataFrame) (h : get_fund_list funcs = Except.ok out) :
    (∀ c ∈ out.getCol ("基金代码"), ∃ s, c = Cell.str (zfill 6 s))
    ∧ (out.getCol ("基金代码")).Nodup := by
  obtain ⟨df0, df2, h0, h2, hout⟩ := get_fund_list_ok_elim h
  have hc3 : "基金代码" ∈ (ensureName df2).cols := ensureName_mem (ensureCode_code_mem h2)
  have hki : idxOf? ("基金代码") out.cols = some 0 := by
    rw [hout, finalize_cols hc3, keep_eq_cons hc3]
    simp [idxOf?]
  have hgc : out.getCol ("基金代码") = out.rows.map (fun r => r.getD 0 Cell.null) := by
    show out.rows.map (fun r => out.colAt ("基金代码") r) = _
    rw [colAt_of_idx hki]
  have hrows : out.rows = dedupAux (fun r => r.getD 0 Cell.null) []
      ((ensureName df2).rows.map (fun r =>
        Cell.str (zfill 6 (cellToStr ((ensureName df2).colAt ("基金代码") r)))
          :: ((keepCols.tail).filter (fun c => decide (c ∈ (ensureName df2).cols))).map
              (fun n => (ensureName df2).colAt n r))) := by
    rw [hout, finalize_rows hc3]
  constructor
  · intro c hc
    rw [hgc] at hc
    obtain ⟨r, hr, hcr⟩ := List.mem_map.mp hc
    rw [hrows] at hr
    obtain ⟨r0, _, hshape⟩ := List.mem_map.mp (mem_of_mem_dedupAux hr)
    refine ⟨cellToStr ((ensureName df2).colAt ("基金代码") r0), ?_⟩
    rw [← hcr, ← hshape]
    rfl
  · rw [hgc, hrows]
    exact (dedupAux_key_nodup (fun r => r.getD 0 Cell.null) _ []).1

/-- Witness instantiating `get_fund_list_ids_padded_distinct` on a provider
response with a duplicated identifier. -/
theorem get_fund_list_ids_padded_distinct_witness :
    (∀ c ∈ c5out.getCol ("基金代码"), ∃ s, c = Cell.str (zfill 6 s))
    ∧ (c5out.getCol ("基金代码")).Nodup :=
  get_fund_list_ids_padded_distinct c5funcs c5out rfl

/-- C6: for each known alternate column spelling present in the provider
response, the corresponding canonical column name appears in
`get_fund_list`'s result. -/
theorem get_fund_list_alt_cols (funcs : String → Option DataFrame)
    (df0 out : DataFrame) (h0 : firstAvailable funcs = some df0)
    (hok : get_fund_list funcs = Except.ok out) :
    ∀ p ∈ [("代码", "基金代码"), ("简称", "基金名称"), ("类型", "基金类型"),
        ("全称", "基金全称"), ("公司", "基金公司"), ("成立日", "成立日期")],
      p.1 ∈ df0.cols → p.2 ∈ out.cols := by
  obtain ⟨df0', df2, h0', h2, hout⟩ := get_fund_list_ok_elim hok
  rw [h0] at h0'
  injection h0' with h0'
  subst h0'
  have hc3 : "基金代码" ∈ (ensureName df2).cols := ensureName_mem (ensureCode_code_mem h2)
  have hmemf : ∀ q : String, q ∈ keepCols → q ∈ (ensureName df2).cols → q ∈ out.cols := by
    intro q hq1 hq2
    rw [hout, finalize_cols hc3]
    exact List.mem_filter.mpr ⟨hq1, decide_eq_true hq2⟩
  have hvia : ∀ a k : String, a ∈ df0.cols → canonName a = k →
      strHasSub k ("代码") = false → k ∈ keepCols → k ∈ out.cols := by
    intro a k ha hk hno hkeep
    have hm1 : k ∈ (renameCanon df0).cols := List.mem_map.mpr ⟨a, ha, hk⟩
    exact hmemf k hkeep (ensureName_mem (ensureCode_mem_preserved h2 hm1 hno))
  intro p hp halt
  simp only [List.mem_cons, List.not_mem_nil, or_false] at hp
  rcases hp with rfl | rfl | rfl | rfl | rfl | rfl
  · exact hmemf _ (by decide) hc3
  · exact hmemf _ (by decide) (ensureName_name_mem df2)
  · exact hvia _ _ halt (by decide) (by decide) (by decide)
  · exact hvia _ _ halt (by decide) (by decide) (by decide)
  · exact hvia _ _ halt (by decide) (by decide) (by decide)
  · exact hvia _ _ halt (by decide) (by decide) (by decide)

/-- Witness instantiating `get_fund_list_alt_cols` on a response using every
alternate spelling, at the pair (`类型`, `基金类型`). -/
theorem get_fund_list_alt_cols_witness : "基金类型" ∈ c6out.cols :=
  get_fund_list_alt_cols c6funcs c6df c6out rfl rfl
    (("类型", "基金类型")) (by simp) (by decide)

/-- C4 counterexample: a provider response with a code column but no
name-like column does not make `get_fund_list` fail; it succeeds. -/
theorem get_fund_list_no_name_still_ok :
    (∀ c ∈ (renameCanon c4df).cols,
        strHasSub c ("简称") = false ∧ strHasSub c ("名称") = false)
    ∧ get_fund_list c4funcs
        = Except.ok ⟨["基金代码", "基金名称"], [[Cell.str "000007", Cell.str ""]]⟩ := by
  constructor
  · decide
  · rfl

theorem get_fund_list_ok_intro {funcs : String → Option DataFrame}
    {df0 df2 : DataFrame} (h0 : firstAvailable funcs = some df0)
    (h2 : ensureCode (renameCanon df0) = some df2) :
    get_fund_list funcs = Except.ok (finalize (ensureName df2)) := by
  unfold get_fund_list
  rw [h0]
  show (match ensureCode (renameCanon df0) with
    | none => Except.error ("fund list lacks a code column")
    | some d2 => Except.ok (finalize (ensureName d2))) = _
  rw [h2]

/-- C4 (amended): when no name column can be inferred, `get_fund_list` does
not fail; it adds a `基金名称` column whose every entry is the empty
string. -/
theorem get_fund_list_no_name_fills_empty (funcs : String → Option DataFrame)
    (df0 df2 : DataFrame)
    (h0 : firstAvailable funcs = some df0)
    (h2 : ensureCode (renameCanon df0) = some df2)
    (hwf : ∀ r ∈ df2.rows, r.length = df2.cols.length)
    (hn : ∀ c ∈ df2.cols, strHasSub c ("简称") = false ∧ strHasSub c ("名称") = false) :
    ∃ out, get_fund_list funcs = Except.ok out
      ∧ "基金名称" ∈ out.cols
      ∧ ∀ c ∈ out.getCol ("基金名称"), c = Cell.str "" := by
  have hnm : "基金名称" ∉ df2.cols := fun hm => absurd ((hn _ hm).2) (by decide)
  have hfind : df2.cols.find?
      (fun c => strHasSub c ("简称") || strHasSub c ("名称")) = none := by
    refine List.find?_eq_none.mpr (fun c hc => ?_)
    obtain ⟨ha, hb⟩ := hn c hc
    simp [ha, hb]
  have hname : ensureName df2
      = ⟨df2.cols ++ ["基金名称"], df2.rows.map (fun r => r ++ [Cell.str ""])⟩ := by
    unfold ensureName
    rw [if_neg hnm, hfind]
    show df2.setCol ("基金名称") (df2.rows.map (fun _ => Cell.str "")) = _
    rw [setCol_of_not_mem hnm]
    congr 1
    exact zip_self_map df2.rows (fun _ => Cell.str "") (fun a b => a ++ [b])
  have hok := get_fund_list_ok_intro h0 h2
  have hcode2 : "基金代码" ∈ df2.cols := ensureCode_code_mem h2
  have hc3 : "基金代码" ∈ (ensureName df2).cols := ensureName_mem hcode2
  refine ⟨finalize (ensureName df2), hok, ?_, ?_⟩
  · rw [finalize_cols hc3]
    refine List.mem_filter.mpr ⟨by decide, decide_eq_true (ensureName_name_mem df2)⟩
  · -- entries of the 基金名称 column
    have hcols : (finalize (ensureName df2)).cols
        = "基金代码" :: (keepCols.tail).filter
            (fun c => decide (c ∈ (ensureName df2).cols)) := by
      rw [finalize_cols hc3, keep_eq_cons hc3]
    have hkt : (keepCols.tail).filter (fun c => decide (c ∈ (ensureName df2).cols))
        = "基金名称" :: ((keepCols.tail).tail).filter
            (fun c => decide (c ∈ (ensureName df2).cols)) := by
      show List.filter _ ("基金名称" :: (keepCols.tail).tail) = _
      rw [List.filter_cons, if_pos (decide_eq_true (ensureName_name_mem df2))]
    have hki1 : idxOf? ("基金名称") (finalize (ensureName df2)).cols = some 1 := by
      rw [hcols, hkt]
      simp [idxOf?]
    have hidx3 : idxOf? ("基金名称") (ensureName df2).cols = some df2.cols.length := by
      rw [hname]
      show idxOf? ("基金名称") (df2.cols ++ ["基金名称"]) = _
      rw [@idxOf?_append_of_not_mem ("基金名称") df2.cols (["基金名称"]) hnm]
      simp [idxOf?]
    have hval3 : ∀ r ∈ (ensureName df2).rows,
        (ensureName df2).colAt ("基金名称") r = Cell.str "" := by
      intro r hr
      rw [colAt_of_idx hidx3]
      rw [hname] at hr
      obtain ⟨r0, hr0, hsh⟩ := List.mem_map.mp hr
      rw [← hsh]
      show (r0 ++ [Cell.str ""]).getD df2.cols.length Cell.null = Cell.str ""
      rw [List.getD_append_right _ _ _ _ (le_of_eq (hwf r0 hr0)), hwf r0 hr0]
      simp
    intro c hc
    obtain ⟨r, hr, hcr⟩ := List.mem_map.mp hc
    rw [colAt_of_idx hki1] at hcr
    rw [finalize_rows hc3] at hr
    obtain ⟨r0, hr0, hsh⟩ := List.mem_map.mp (mem_of_mem_dedupAux hr)
    rw [← hsh, hkt, List.map_cons] at hcr
    rw [← hcr]
    show (ensureName df2).colAt ("基金名称") r0 = Cell.str ""
    exact hval3 r0 hr0

/-- Witness instantiating `get_fund_list_no_name_fills_empty` on `c4funcs`. -/
theorem get_fund_list_no_name_fills_empty_witness :
    ∃ out, get_fund_list c4funcs = Except.ok out
      ∧ "基金名称" ∈ out.cols
      ∧ ∀ c ∈ out.getCol ("基金名称"), c = Cell.str "" :=
  get_fund_list_no_name_fills_empty c4funcs (c4df) ⟨["基金代码"], [[Cell.str "7"]]⟩
    rfl rfl (by decide) (by decide)

/-- C7: the exported table has exactly `min (catalog length) TOP_N` rows, and
its latest-NAV-date column is the per-symbol fetch applied to exactly the
first `TOP_N` catalog identifiers, in catalog order. -/
theorem mainTable_enriches_first_topn (funcs : String → Option DataFrame)
    (fetch : String → FetchResult) (now : String) (dfAll out : DataFrame)
    (hget : get_fund_list funcs = Except.ok dfAll)
    (hmain : mainTable funcs fetch now = Except.ok out) :
    out.rows.length = min dfAll.rows.length TOP_N
    ∧ out.getCol ("最新净值日期") =
        ((dfAll.rows.take TOP_N).map (fun r => dfAll.colAt ("基金代码") r)).map
          (fun c => ((fetch_latest_nav (fetch (cellToStr c))).1).elim Cell.null Cell.str) := by
  have hsub := get_fund_list_cols_sub hget
  have hn1 : "最新净值日期" ∉ dfAll.cols := fun hm => by
    have := hsub _ hm
    revert this
    decide
  have hspec := mainTable_spec funcs fetch now dfAll hget
  rw [hmain] at hspec
  injection hspec with hout
  have hcols : out.cols = dfAll.cols ++ ["最新净值日期", "最新单位净值", "导出时间"] := by
    rw [hout]
  have hrows : out.rows = (dfAll.rows.take TOP_N).map (fun r =>
      r ++ [((fetch_latest_nav (fetch (cellToStr (dfAll.colAt ("基金代码") r)))).1).elim
              Cell.null Cell.str,
            ((fetch_latest_nav (fetch (cellToStr (dfAll.colAt ("基金代码") r)))).2).elim
              Cell.null Cell.num,
            Cell.str now]) := by
    rw [hout]
  constructor
  · rw [hrows]
    simp [List.length_take, Nat.min_comm]
  · have hd1 : idxOf? ("最新净值日期") out.cols = some dfAll.cols.length := by
      rw [hcols, @idxOf?_append_of_not_mem ("最新净值日期") dfAll.cols _ hn1]
      simp [idxOf?]
    show out.rows.map (fun r => out.colAt ("最新净值日期") r) = _
    rw [colAt_of_idx hd1, hrows, List.map_map, List.map_map]
    apply List.map_congr_left
    intro r hr
    have hlen : r.length = dfAll.cols.length :=
      get_fund_list_rows_len hget r (List.take_subset _ _ hr)
    simp only [Function.comp_apply]
    rw [List.getD_append_right _ _ _ _ (le_of_eq hlen), hlen]
    simp

/-- Witness instantiating `mainTable_enriches_first_topn` on the end-to-end
scenario data. -/
theorem mainTable_enriches_first_topn_witness :
    c8out.rows.length = min c8cat.rows.length TOP_N
    ∧ c8out.getCol ("最新净值日期") =
        ((c8cat.rows.take TOP_N).map (fun r => c8cat.colAt ("基金代码") r)).map
          (fun c => ((fetch_latest_nav (c8fetch (cellToStr c))).1).elim Cell.null Cell.str) :=
  mainTable_enriches_first_topn c8funcs c8fetch ("2025-01-01 00:00:00") c8cat c8out rfl rfl

/-- C10: the enrichment stage only appends the three new columns; every
catalog column name and every catalog value on the retained rows is unchanged
in the exported table. -/
theorem mainTable_appends_only (funcs : String → Option DataFrame)
    (fetch : String → FetchResult) (now : String) (dfAll out : DataFrame)
    (hget : get_fund_list funcs = Except.ok dfAll)
    (hmain : mainTable funcs fetch now = Except.ok out) :
    out.cols = dfAll.cols ++ ["最新净值日期", "最新单位净值", "导出时间"]
    ∧ out.rows.map (fun r => r.take dfAll.cols.length) = dfAll.rows.take TOP_N := by
  have hspec := mainTable_spec funcs fetch now dfAll hget
  rw [hmain] at hspec
  injection hspec with hout
  refine ⟨by rw [hout], ?_⟩
  have hrows : out.rows = (dfAll.rows.take TOP_N).map (fun r =>
      r ++ [((fetch_latest_nav (fetch (cellToStr (dfAll.colAt ("基金代码") r)))).1).elim
              Cell.null Cell.str,
            ((fetch_latest_nav (fetch (cellToStr (dfAll.colAt ("基金代码") r)))).2).elim
              Cell.null Cell.num,
            Cell.str now]) := by
    rw [hout]
  rw [hrows, List.map_map]
  calc ((dfAll.rows.take TOP_N).map _)
      = (dfAll.rows.take TOP_N).map id := by
        apply List.map_congr_left
        intro r hr
        have hlen : r.length = dfAll.cols.length :=
          get_fund_list_rows_len hget r (List.take_subset _ _ hr)
        simp only [Function.comp_apply, id]
        rw [← hlen]
        simp
    _ = dfAll.rows.take TOP_N := List.map_id _

/-- Witness instantiating `mainTable_appends_only` on the end-to-end
scenario data. -/
theorem mainTable_appends_only_witness :
    c8out.cols = c8cat.cols ++ ["最新净值日期", "最新单位净值", "导出时间"]
    ∧ c8out.rows.map (fun r => r.take c8cat.cols.length) = c8cat.rows.take TOP_N :=
  mainTable_appends_only c8funcs c8fetch ("2025-01-01 00:00:00") c8cat c8out rfl rfl

/-- C8: end-to-end, on a 3-row catalog with canned NAV responses of which the
one for `000002` is empty, the exported table has 3 rows, the `000002` row
has missing values in both NAV columns, and the export-timestamp column is
present with the same value on every row. -/
theorem main_end_to_end :
    mainTable c8funcs c8fetch ("2025-01-01 00:00:00") = Except.ok c8out
    ∧ c8out.rows.length = 3
    ∧ c8out.getCol ("基金代码") = [Cell.str "000001", Cell.str "000002", Cell.str "000003"]
    ∧ c8out.getCol ("最新净值日期") = [Cell.str "2024-01-02", Cell.null, Cell.str "2024-02-03"]
    ∧ c8out.getCol ("最新单位净值") = [Cell.num 1, Cell.null, Cell.num 2]
    ∧ c8out.getCol ("导出时间") = [Cell.str "2025-01-01 00:00:00",
        Cell.str "2025-01-01 00:00:00", Cell.str "2025-01-01 00:00:00"] :=
  ⟨rfl, rfl, rfl, rfl, rfl, rfl⟩
